import Mathlib

/-!
Verification of the jinja2xlsx HTML-table-to-spreadsheet converter
(`jinja2xlsx/api.py`) against its design document.

The Python source is shallowly embedded: every function of `api.py` is
translated to an executable Lean definition of the same name. Python
strings are modelled as `String` (operated on through `List Char`),
Python `int`/`float` as `Int`/`Rat`, `None`-able values as `Option`,
raised exceptions as `Except Unit`, and the mutable openpyxl worksheet
as an explicit `Sheet` record threaded through the layout engine.

External collaborators that are not part of the repository's source
(the `models.Style` dataclass imported from `jinja2xlsx.models`, the
openpyxl cell/border primitives, and CPython's `int()`/`float()`
conversions) are modelled from the design document, and each such
definition carries a doc comment saying so.
-/

set_option linter.all false

/-- Decidable equality for `Except`, used to evaluate the embedded
functions on concrete inputs. -/
instance {ε α : Type} [DecidableEq ε] [DecidableEq α] : DecidableEq (Except ε α) := fun a b =>
  match a, b with
  | .ok x, .ok y =>
    if h : x = y then .isTrue (by rw [h]) else .isFalse (fun hh => by cases hh; exact h rfl)
  | .error x, .error y =>
    if h : x = y then .isTrue (by rw [h]) else .isFalse (fun hh => by cases hh; exact h rfl)
  | .ok _, .error _ => .isFalse (fun hh => by cases hh)
  | .error _, .ok _ => .isFalse (fun hh => by cases hh)

namespace Jinja2xlsx

/-! ### Python string primitives -/

/-- ASCII whitespace, as stripped by Python's `str.strip()`
(the unicode extras are irrelevant to this code base). -/
def pyIsSpace (c : Char) : Bool :=
  c = ' ' || c = '\t' || c = '\n' || c = '\r' || c = '\x0b' || c = '\x0c'

/-- Python `str.strip()`: drop whitespace from both ends. -/
def pyStrip (l : List Char) : List Char :=
  ((l.dropWhile pyIsSpace).reverse.dropWhile pyIsSpace).reverse

/-- Python `str.split(sep)` for a one-character separator: keeps empty
segments, so `"a;;b".split(";") = ["a", "", "b"]` and `"".split(";") = [""]`. -/
def pySplitChar (sep : Char) : List Char → List (List Char)
  | [] => [[]]
  | c :: cs =>
    match pySplitChar sep cs with
    | [] => [[]]
    | h :: t => if c = sep then [] :: h :: t else (c :: h) :: t

/-- Numeric value of a digit run. -/
def digitsVal (l : List Char) : Nat :=
  l.foldl (fun a c => a * 10 + (c.toNat - 48)) 0

/-- All-digit check plus value, `none` on an empty or non-digit run. -/
def natOfDigits (l : List Char) : Option Nat :=
  if l ≠ [] && l.all Char.isDigit then some (digitsVal l) else none

/-- Modelled from the spec: CPython's `int(str)` conversion (an external
runtime primitive), per the design document's integer-parse contract —
surrounding whitespace, an optional sign, then decimal digits; no decimal
point and no exponent.  Exotic CPython forms (underscore separators) are
outside the documented grammar and rejected here. -/
def pyParseInt (s : String) : Option Int :=
  match pyStrip s.toList with
  | '+' :: t => (natOfDigits t).map Int.ofNat
  | '-' :: t => (natOfDigits t).map (fun n => -(n : Int))
  | t => (natOfDigits t).map Int.ofNat

/-- Exponent suffix of a Python float literal: optional sign then digits. -/
def pyFloatExp (neg : Bool) (mant : Rat) (t : List Char) : Option Rat :=
  let p : Bool × List Char :=
    match t with
    | '+' :: u => (false, u)
    | '-' :: u => (true, u)
    | u => (false, u)
  if p.2.isEmpty || !(p.2.all Char.isDigit) then none
  else
    let e := digitsVal p.2
    let v := if p.1 then mant / (10 : Rat) ^ e else mant * (10 : Rat) ^ e
    some (if neg then -v else v)

/-- Modelled from the spec: CPython's `float(str)` conversion (an external
runtime primitive), per the design document's floating-point contract —
the standard decimal literal grammar `[sign] (digits [. digits] | . digits)
[(e|E) [sign] digits]`, read exactly as a rational.  `inf`/`nan` and
underscore separators are outside the documented grammar. -/
def pyParseFloat (s : String) : Option Rat :=
  let l := pyStrip s.toList
  let sg : Bool × List Char :=
    match l with
    | '+' :: t => (false, t)
    | '-' :: t => (true, t)
    | t => (false, t)
  let neg := sg.1
  let ip := sg.2.takeWhile Char.isDigit
  let r1 := sg.2.dropWhile Char.isDigit
  match r1 with
  | '.' :: r =>
    let fp := r.takeWhile Char.isDigit
    let r2 := r.dropWhile Char.isDigit
    if ip.isEmpty && fp.isEmpty then none
    else
      let mant : Rat := (digitsVal ip : Rat) + (digitsVal fp : Rat) / (10 : Rat) ^ fp.length
      match r2 with
      | [] => some (if neg then -mant else mant)
      | 'e' :: t => pyFloatExp neg mant t
      | 'E' :: t => pyFloatExp neg mant t
      | _ => none
  | r2 =>
    if ip.isEmpty then none
    else
      let mant : Rat := (digitsVal ip : Rat)
      match r2 with
      | [] => some (if neg then -mant else mant)
      | 'e' :: t => pyFloatExp neg mant t
      | 'E' :: t => pyFloatExp neg mant t
      | _ => none

/-! ### CSS micro-parser: `style_to_dict` -/

/-- One `key: value` declaration.  Source: the dict-comprehension in
`style_to_dict` — `style.split(":")` followed by unpacking into exactly
two names, so a segment with zero or several colons raises `ValueError`. -/
def parseDecl (seg : List Char) : Except Unit (String × String) :=
  match pySplitChar ':' seg with
  | [k, v] => .ok (String.mk (pyStrip k), String.mk (pyStrip v))
  | _ => .error ()

/-- `style_to_dict(style_str)`: `None`/empty give `{}`; otherwise split on
`;`, drop empty segments (`filter(None, ...)`), and parse each remaining
segment as a declaration.  The Python dict is modelled as the insertion-order
association list; `dictGet` below reproduces last-write-wins lookup. -/
def style_to_dict (style_str : Option String) : Except Unit (List (String × String)) :=
  match style_str with
  | none => .ok []
  | some s =>
    if s = "" then .ok []
    else
      ((pySplitChar ';' s.toList).filter (fun seg => seg ≠ [])).foldlM
        (fun acc seg => do
          let kv ← parseDecl seg
          .ok (acc ++ [kv]))
        []

/-- Python `dict.get(k)` over the association list: the most recently
inserted binding of a duplicated key wins. -/
def dictGet (d : List (String × String)) (k : String) : Option String :=
  (d.reverse.find? (fun p => p.1 = k)).map (fun p => p.2)

/-! ### Style model

The cell-style value types mirror openpyxl's `Side`, `Border`, `Alignment`
and `Font` (external collaborators), restricted to the attributes this code
base reads and writes; `none` stands for Python `None`. -/

/-- The only side styles `_build_border` produces. -/
inductive SideStyle
  | thin
  | medium
  deriving DecidableEq, Repr

/-- openpyxl `Side`: `Side()` is `⟨none⟩`, a side object with no
explicit weight. -/
structure Side where
  style : Option SideStyle
  deriving DecidableEq, Repr

/-- openpyxl `Border`: four independent sides, each either absent
(`None`) or a `Side`. -/
structure Border where
  left : Option Side
  right : Option Side
  top : Option Side
  bottom : Option Side
  deriving DecidableEq, Repr

/-- `Border()`: no side set. -/
def Border.empty : Border := ⟨none, none, none, none⟩

/-- openpyxl `Alignment`, restricted to the two attributes this code sets. -/
structure Alignment where
  horizontal : Option String
  wrap_text : Option Bool
  deriving DecidableEq, Repr

/-- `Alignment()`: nothing set. -/
def Alignment.empty : Alignment := ⟨none, none⟩

/-- openpyxl `Font`, restricted to boldness; `_build_font` always writes an
explicit boolean (the design document: font has no unset state). -/
structure Font where
  bold : Bool
  deriving DecidableEq, Repr

/-- `Font()` as this code base uses it: not bold. -/
def Font.default : Font := ⟨false⟩

/-- Modelled from the spec: the `Style` dataclass of `jinja2xlsx/models.py`,
which is imported by the source file but absent from the repository snapshot.
Per the design document it holds a border, an alignment and a font, each of
which may be absent ("unset, inherit default"); `none` is Python `None`,
`some` a present (possibly contentless) object. -/
structure Style where
  border : Option Border
  alignment : Option Alignment
  font : Option Font
  deriving DecidableEq, Repr

/-- Modelled from the spec: the default `Style()`.  The design document's
data model places optionality at the leaf fields (border sides, alignment
attributes), so an "empty Style" carries present but contentless
border/alignment/font components — matching a dataclass whose fields default
to `Border()`, `Alignment()`, `Font()`. -/
def Style.default : Style := ⟨some Border.empty, some Alignment.empty, some Font.default⟩

/-- Modelled from the spec: `Style.union` of `jinja2xlsx/models.py` —
field-wise, the override's component wins whenever it is present, the
receiver's component is kept otherwise. -/
def Style.union (self other : Style) : Style :=
  ⟨(other.border).orElse (fun _ => self.border),
   (other.alignment).orElse (fun _ => self.alignment),
   (other.font).orElse (fun _ => self.font)⟩

/-! ### `_build_border` and friends -/

/-- Python `re.match(r"\d+px solid black", rule)`: an (unanchored-at-the-end)
match at the start of the string, i.e. a non-empty digit run followed
immediately by the literal text `px solid black`.  Backtracking inside
`\d+` never helps because `p` is not a digit, so the maximal digit prefix
is the only candidate. -/
def pxSolidBlackMatch (s : String) : Bool :=
  let l := s.toList
  !(l.takeWhile Char.isDigit).isEmpty
    && ("px solid black".toList).isPrefixOf (l.dropWhile Char.isDigit)

/-- The side built from one border declaration value, from `_from_border_attr`:
exactly `"1px solid black"` is thin, any other value matching the pixel
regex is medium, anything else is a side without explicit weight. -/
def sideOfRule (border_rule : String) : Side :=
  if border_rule = "1px solid black" then ⟨some SideStyle.thin⟩
  else if pxSolidBlackMatch border_rule then ⟨some SideStyle.medium⟩
  else ⟨none⟩

/-- `_from_border_attr` (the inner function of `_build_border`): `None` when
the property is missing or its value empty; otherwise a `Border` with the
side placed according to the property name. -/
def from_border_attr (style_dict : List (String × String)) (border_attr : String) : Option Border :=
  match dictGet style_dict border_attr with
  | none => none
  | some border_rule =>
    if border_rule = "" then none
    else
      let side := sideOfRule border_rule
      if border_attr = "border" then some ⟨some side, some side, some side, some side⟩
      else if border_attr = "border-left" then some ⟨some side, none, none, none⟩
      else if border_attr = "border-right" then some ⟨none, some side, none, none⟩
      else if border_attr = "border-top" then some ⟨none, none, some side, none⟩
      else if border_attr = "border-bottom" then some ⟨none, none, none, some side⟩
      else none

/-- `_build_border`: the first non-`None` result over the fixed property
order, else `Border()` — `next(borders, Border())` over the filtered tuple. -/
def _build_border (style_dict : List (String × String)) : Border :=
  (((((from_border_attr style_dict "border").orElse
      (fun _ => from_border_attr style_dict "border-left")).orElse
      (fun _ => from_border_attr style_dict "border-right")).orElse
      (fun _ => from_border_attr style_dict "border-top")).orElse
      (fun _ => from_border_attr style_dict "border-bottom")).getD Border.empty

/-- `_build_alignment`: `text-align` passed through verbatim; `word-wrap`
mapped to the tri-state wrap flag. -/
def _build_alignment (style_dict : List (String × String)) : Alignment :=
  let word_wrap := dictGet style_dict "word-wrap"
  let wrap_text : Option Bool :=
    if word_wrap = some "break-word" then some true
    else if word_wrap = some "normal" then some false
    else none
  ⟨dictGet style_dict "text-align", wrap_text⟩

/-- `_build_font`: bold exactly when `font-weight` is `"bold"`. -/
def _build_font (style_dict : List (String × String)) : Font :=
  ⟨dictGet style_dict "font-weight" = some "bold"⟩

/-- `extract_style`: falsy attribute gives `Style()`; otherwise parse the
declarations (which can raise) and build the three components, all present. -/
def extract_style (style_attr : Option String) : Except Unit Style :=
  match style_attr with
  | none => .ok Style.default
  | some s =>
    if s = "" then .ok Style.default
    else
      match style_to_dict (some s) with
      | .error e => .error e
      | .ok style_dict =>
        .ok ⟨some (_build_border style_dict), some (_build_alignment style_dict),
             some (_build_font style_dict)⟩

/-! ### Unit converter -/

/-- `width_pixels_to_xlsx_units`; Python float arithmetic on these values is
exact, so `Rat` models it faithfully. -/
def width_pixels_to_xlsx_units (pixels : Rat) : Rat :=
  pixels / (15 / 2)

/-- `height_pixels_to_xlsx_units`. -/
def height_pixels_to_xlsx_units (pixels : Rat) : Rat :=
  pixels * 3 / 4

/-- Python cell values as written by the layout engine: `None`, `int`,
`float` (modelled as the exact rational the literal denotes) or `str`. -/
inductive CellValue
  | none
  | int (i : Int)
  | float (q : Rat)
  | str (s : String)
  deriving DecidableEq, Repr

/-- `parse_cell_value`: try `int()`, then `float()`, then keep the string,
except that the empty string becomes `None`. -/
def parse_cell_value (cell_text : String) : CellValue :=
  match pyParseInt cell_text with
  | some i => .int i
  | none =>
    match pyParseFloat cell_text with
    | some q => .float q
    | none => if cell_text = "" then .none else .str cell_text

/-- `(\d+)px` scanning of `re.findall("(\d+)px", s)[0]`: the leftmost
maximal digit run immediately followed by `px` (the regex scan advances one
position after a failed start; a shorter suffix of an all-digit run can
never succeed where the run's own end fails, so checking the maximal run at
each digit position gives the regex's leftmost-match semantics). -/
def firstPxGroup : List Char → Option Nat
  | [] => none
  | c :: cs =>
    if c.isDigit then
      match (c :: cs).dropWhile Char.isDigit with
      | 'p' :: 'x' :: _ => some (digitsVal ((c :: cs).takeWhile Char.isDigit))
      | _ => firstPxGroup cs
    else firstPxGroup cs

/-- `try_extract_pixels`: falsy input gives `None`; otherwise
`float(re.findall("(\d+)px", s)[0])`, which raises `IndexError` when the
pattern does not occur. -/
def try_extract_pixels (pixel_str : Option String) : Except Unit (Option Rat) :=
  match pixel_str with
  | none => .ok none
  | some s =>
    if s = "" then .ok none
    else
      match firstPxGroup s.toList with
      | some n => .ok (some (n : Rat))
      | none => .error ()

/-! ### The worksheet model

The openpyxl worksheet is an external collaborator; following the design
document it is modelled as a grid addressed by 1-based `(row, column)`
coordinates, with per-cell value/border/alignment/font state, a list of
merge ranges, and row-height/column-width tables.  A grid position is a
merged-away ghost exactly when it lies inside a recorded merge range and
is not that range's top-left anchor. -/

/-- An inclusive rectangular merge range, as produced by `str_cell_range`
(the `"A1:B2"` string encoding of openpyxl is elided; the rectangle itself
is what both producer and consumer in the source use). -/
structure MergeRange where
  startRow : Int
  startCol : Int
  endRow : Int
  endCol : Int
  deriving DecidableEq, Repr

/-- The worksheet state. -/
structure Sheet where
  values : Int × Int → CellValue
  borders : Int × Int → Border
  aligns : Int × Int → Option Alignment
  fonts : Int × Int → Option Font
  merges : List MergeRange
  rowHeights : Int → Option Rat
  colWidths : Int → Option Rat

/-- Point update of a grid table. -/
def upd {α : Type} (f : Int × Int → α) (p : Int × Int) (v : α) : Int × Int → α :=
  fun q => if q = p then v else f q

/-- Point update of an index table. -/
def upd1 {α : Type} (f : Int → α) (i : Int) (v : α) : Int → α :=
  fun j => if j = i then v else f j

/-- A fresh workbook sheet: empty cells, no merges, no dimensions. -/
def emptySheet : Sheet :=
  ⟨fun _ => CellValue.none, fun _ => Border.empty, fun _ => none, fun _ => none,
   [], fun _ => none, fun _ => none⟩

/-- `isinstance(sheet.cell(r, c), MergedCell)`: the position is covered by a
merge range but is not its anchor. -/
def isGhost (sheet : Sheet) (r c : Int) : Bool :=
  sheet.merges.any fun m =>
    m.startRow ≤ r && r ≤ m.endRow && m.startCol ≤ c && c ≤ m.endCol
      && !(r = m.startRow && c = m.startCol)

/-- Largest end column of any recorded merge range (0 when there are none):
beyond it no position is a ghost. -/
def maxEndCol (sheet : Sheet) : Int :=
  (sheet.merges.map fun m => m.endCol).foldr max 0

/-- Bounded form of the ghost-skip `while` loop of
`fill_sheet_with_table_data`: starting from 0-based column cursor `c`,
advance while the 1-based target `(r, c+1)` is a merged-away cell. -/
def skipGhostsFuel : Nat → Sheet → Int → Int → Int
  | 0, _, _, c => c
  | n + 1, sheet, r, c =>
    if isGhost sheet r (c + 1) then skipGhostsFuel n sheet r (c + 1) else c

/-- The ghost-skip scan.  The fuel is one more than the distance from the
cursor to the last column any merge can cover, which the `skipGhosts`
theorems prove is always enough for the loop to reach a writable cell. -/
def skipGhosts (sheet : Sheet) (r c : Int) : Int :=
  skipGhostsFuel ((maxEndCol sheet + 1 - c).toNat + 1) sheet r c

/-- `style_single_cell`: `setattr` every style field of the cell, absent
fields included — an absent border resets the cell to the default border. -/
def style_single_cell (sheet : Sheet) (p : Int × Int) (style : Style) : Sheet :=
  { sheet with
    borders := upd sheet.borders p (style.border.getD Border.empty)
    aligns := upd sheet.aligns p style.alignment
    fonts := upd sheet.fonts p style.font }

/-- Modelled from the spec: openpyxl's border combination
(`cell.border + new`) — each side of the new border that is present
replaces the old side, old sides are kept otherwise ("combined, not
overwritten"). -/
def borderAdd (old new : Border) : Border :=
  ⟨(new.left).orElse (fun _ => old.left),
   (new.right).orElse (fun _ => old.right),
   (new.top).orElse (fun _ => old.top),
   (new.bottom).orElse (fun _ => old.bottom)⟩

/-- `cell.border = cell.border + nb` at one grid position. -/
def addBorderAt (sheet : Sheet) (p : Int × Int) (nb : Border) : Sheet :=
  { sheet with borders := upd sheet.borders p (borderAdd (sheet.borders p) nb) }

/-- The inclusive integer interval `[a, b]` as a list. -/
def intRange (a b : Int) : List Int :=
  (List.range (b + 1 - a).toNat).map fun (i : Nat) => a + (i : Int)

/-- `style_and_merge_cell_range`: if the style's alignment is present,
merge the range and set the alignment on the top-left cell; if the font is
present, set it on the top-left cell; then add the style's top/bottom/left/
right border sides to the corresponding perimeter rows and columns of the
range, each combined with the border already on the cell. -/
def style_and_merge_cell_range (sheet : Sheet) (cell_range : MergeRange) (style : Style) :
    Sheet :=
  let b := style.border.getD Border.empty
  let top : Border := ⟨none, none, b.top, none⟩
  let left : Border := ⟨b.left, none, none, none⟩
  let right : Border := ⟨none, b.right, none, none⟩
  let bottom : Border := ⟨none, none, none, b.bottom⟩
  let first := (cell_range.startRow, cell_range.startCol)
  let sheet1 :=
    match style.alignment with
    | some a =>
      { sheet with
        merges := sheet.merges ++ [cell_range]
        aligns := upd sheet.aligns first (some a) }
    | none => sheet
  let sheet2 :=
    match style.font with
    | some f => { sheet1 with fonts := upd sheet1.fonts first (some f) }
    | none => sheet1
  let cols := intRange cell_range.startCol cell_range.endCol
  let rows := intRange cell_range.startRow cell_range.endRow
  let sheet3 := cols.foldl (fun sh c => addBorderAt sh (cell_range.startRow, c) top) sheet2
  let sheet4 := cols.foldl (fun sh c => addBorderAt sh (cell_range.endRow, c) bottom) sheet3
  rows.foldl
    (fun sh r => addBorderAt (addBorderAt sh (r, cell_range.startCol) left)
      (r, cell_range.endCol) right)
    sheet4

/-! ### HTML input model

The DOM produced by the external HTML parser, restricted to what the source
reads: `col` width attributes, row style attributes, and per-cell text,
`colspan`, `rowspan` and `style` attributes (`none` models a missing
attribute). -/

/-- A `<col>` element of the colgroup. -/
structure HtmlCol where
  width : Option String
  deriving DecidableEq, Repr

/-- A `<td>` element. -/
structure HtmlCell where
  text : String
  colspan : Option String
  rowspan : Option String
  style : Option String
  deriving DecidableEq, Repr

/-- A `<tr>` element of the tbody. -/
structure HtmlRow where
  style : Option String
  cells : List HtmlCell
  deriving DecidableEq, Repr

/-- The first `<table>` of the document: its colgroup's `col` elements
(empty when there is no colgroup, in which case the column pass is a no-op
either way) and its tbody's rows. -/
structure HtmlTable where
  cols : List HtmlCol
  rows : List HtmlRow
  deriving DecidableEq, Repr

/-! ### Layout engine -/

/-- `try_adjust_row`: read the row's style, take `line-height` falling back
to `height` (Python `or`, so empty strings also fall through), extract a
pixel count, and set the row height when one was found and is non-zero. -/
def try_adjust_row (sheet : Sheet) (row_index : Int) (row : HtmlRow) : Except Unit Sheet := do
  let style_dict ← style_to_dict row.style
  let fallback : Option String → String → String := fun o d =>
    match o with
    | some s => if s = "" then d else s
    | none => d
  let height_str := fallback (dictGet style_dict "line-height")
    (fallback (dictGet style_dict "height") "")
  let row_height ← try_extract_pixels (some height_str)
  match row_height with
  | some h =>
    if h = 0 then .ok sheet
    else
      .ok { sheet with
            rowHeights := upd1 sheet.rowHeights (row_index + 1)
              (some (height_pixels_to_xlsx_units h)) }
  | none => .ok sheet

/-- `int(attrs.get(name, default))`: a missing attribute yields the integer
default, a present one is converted with `int()` and raises on failure. -/
def pyIntAttrD (attr : Option String) (d : Int) : Except Unit Int :=
  match attr with
  | none => .ok d
  | some s =>
    match pyParseInt s with
    | some i => .ok i
    | none => .error ()

/-- The body of the inner `for html_cell in row.find("td")` loop: skip
merged-away positions, write the parsed value, read the spans, build the
cell style unioned over the default, merge-and-style or style the single
cell, and advance the column cursor by the colspan. -/
def processCell (default_style : Style) (row_index : Int) (st : Sheet × Int)
    (html_cell : HtmlCell) : Except Unit (Sheet × Int) :=
  let sheet0 := st.1
  let col_index := skipGhosts sheet0 (row_index + 1) st.2
  let sheet1 :=
    { sheet0 with
      values := upd sheet0.values (row_index + 1, col_index + 1)
        (parse_cell_value html_cell.text) }
  match pyIntAttrD html_cell.colspan 1, pyIntAttrD html_cell.rowspan 1,
      extract_style html_cell.style with
  | .ok colspan, .ok rowspan, .ok cell_style =>
    let style := default_style.union cell_style
    let sheet2 :=
      if 1 < colspan ∨ 1 < rowspan then
        style_and_merge_cell_range sheet1
          ⟨row_index + 1, col_index + 1, row_index + rowspan, col_index + colspan⟩ style
      else
        style_single_cell sheet1 (row_index + 1, col_index + 1) style
    .ok (sheet2, col_index + colspan)
  | _, _, _ => .error ()

/-- One `for row in table.find("tr")` iteration: adjust the row height,
fold the cells starting from column cursor 0, then advance the row index. -/
def processRow (default_style : Style) (st : Sheet × Int) (row : HtmlRow) :
    Except Unit (Sheet × Int) := do
  let sheet ← try_adjust_row st.1 st.2 row
  let out ← row.cells.foldlM (processCell default_style st.2) (sheet, 0)
  .ok (out.1, st.2 + 1)

/-- `fill_sheet_with_table_data`. -/
def fill_sheet_with_table_data (sheet : Sheet) (table : List HtmlRow)
    (default_style : Style) : Except Unit Sheet := do
  let out ← table.foldlM (processRow default_style) (sheet, 0)
  .ok out.1

/-- `adjust_columns`: `int()`-convert each `col` width (default 0 when the
attribute is missing), skip falsy widths, and set the 1-based column's
width to the converted pixel count. -/
def adjust_columns (sheet : Sheet) (columns : List HtmlCol) : Except Unit Sheet :=
  columns.enum.foldlM
    (fun sh ic => do
      let col_width_in_pixels ←
        match ic.2.width with
        | none => Except.ok (0 : Int)
        | some s =>
          match pyParseInt s with
          | some i => Except.ok i
          | none => Except.error ()
      if col_width_in_pixels = 0 then .ok sh
      else
        .ok { sh with
              colWidths := upd1 sh.colWidths ((ic.1 : Int) + 1)
                (some (width_pixels_to_xlsx_units (col_width_in_pixels : Rat))) })
    sheet

/-- `render`: fresh workbook, column-width pass, then the layout engine over
the tbody rows with the caller's default style (or `Style()`). -/
def render (html_table : HtmlTable) (default_style : Option Style) : Except Unit Sheet := do
  let ds := match default_style with
    | some s => s
    | none => Style.default
  let sheet ← adjust_columns emptySheet html_table.cols
  fill_sheet_with_table_data sheet html_table.rows ds

/-- The merge list of a successful render. -/
def renderMerges (t : HtmlTable) : Option (List MergeRange) :=
  match render t none with
  | .ok s => some s.merges
  | .error _ => none

/-- One cell value of a successful render. -/
def renderValue (t : HtmlTable) (p : Int × Int) : Option CellValue :=
  match render t none with
  | .ok s => some (s.values p)
  | .error _ => none

/-- One column width of a successful render. -/
def renderColWidth (t : HtmlTable) (i : Int) : Option (Option Rat) :=
  match render t none with
  | .ok s => some (s.colWidths i)
  | .error _ => none

/-- Whether a render succeeds at all. -/
def renderOk (t : HtmlTable) : Bool :=
  match render t none with
  | .ok _ => true
  | .error _ => false

/-- Python falsiness of an optional string: `None` or the empty string. -/
def pyFalsy (o : Option String) : Prop :=
  o = none ∨ o = some ""

/-- The perimeter border law of the merge-and-style routine, stated from the
design document: inside the range, a cell's border is its previous border
combined with the style's top side when the cell is on the range's top row,
then its bottom side on the bottom row, then its left side in the leftmost
column, then its right side in the rightmost column; borders of cells
outside the range (interior cells have no condition hold beyond those) are
untouched.  Compared against `style_and_merge_cell_range` by the
corresponding theorem. -/
def borderPerimeterSpec (sheet : Sheet) (cr : MergeRange) (style : Style) (r c : Int) :
    Border :=
  let b := style.border.getD Border.empty
  let b0 := sheet.borders (r, c)
  let b1 := if r = cr.startRow ∧ cr.startCol ≤ c ∧ c ≤ cr.endCol then
      borderAdd b0 ⟨none, none, b.top, none⟩ else b0
  let b2 := if r = cr.endRow ∧ cr.startCol ≤ c ∧ c ≤ cr.endCol then
      borderAdd b1 ⟨none, none, none, b.bottom⟩ else b1
  let b3 := if c = cr.startCol ∧ cr.startRow ≤ r ∧ r ≤ cr.endRow then
      borderAdd b2 ⟨b.left, none, none, none⟩ else b2
  if c = cr.endCol ∧ cr.startRow ≤ r ∧ r ≤ cr.endRow then
    borderAdd b3 ⟨none, b.right, none, none⟩ else b3

/-- The 2-row table of the merge scenario: first row a single `<td>` with
`colspan="2"`, second row two plain `<td>` cells. -/
def tableC1 : HtmlTable :=
  ⟨[], [⟨none, [⟨"a", some "2", none, none⟩]⟩,
        ⟨none, [⟨"b", none, none, none⟩, ⟨"c", none, none, none⟩]⟩]⟩

/-! ## Theorems -/

section Theorems

attribute [local semireducible] Rat.mul Rat.add Rat.inv Rat.sub

/-! ### Helper lemmas about the CSS micro-parser -/

theorem foldDecls_error (segs : List (List Char)) (acc : List (String × String))
    (seg : List Char) (hmem : seg ∈ segs) (herr : parseDecl seg = .error ()) :
    segs.foldlM
      (fun acc seg => do
        let kv ← parseDecl seg
        Except.ok (acc ++ [kv])) acc = .error () := by
  induction segs generalizing acc with
  | nil => cases hmem
  | cons a as ih =>
    simp only [List.foldlM]
    cases hpa : parseDecl a with
    | error e => cases e; simp [bind, Except.bind, hpa]
    | ok kv =>
      rcases List.mem_cons.mp hmem with h | h
      · subst h; rw [herr] at hpa; cases hpa
      · simp only [bind, Except.bind, hpa]
        exact ih _ h

theorem pySplitChar_no_sep (sep : Char) (l : List Char) (h : ∀ ch ∈ l, ch ≠ sep) :
    pySplitChar sep l = [l] := by
  induction l with
  | nil => rfl
  | cons c cs ih =>
    have hc : c ≠ sep := h c (List.mem_cons_self c cs)
    have ih2 := ih fun ch hch => h ch (List.mem_cons_of_mem c hch)
    simp [pySplitChar, ih2, hc]

theorem parseDecl_error_of_no_colon (seg : List Char) (h : ∀ ch ∈ seg, ch ≠ ':') :
    parseDecl seg = .error () := by
  simp [parseDecl, pySplitChar_no_sep ':' seg h]

theorem parseDecl_error_of_len (seg : List Char)
    (h : (pySplitChar ':' seg).length ≠ 2) : parseDecl seg = .error () := by
  unfold parseDecl
  cases hsp : pySplitChar ':' seg with
  | nil => rfl
  | cons a t =>
    cases t with
    | nil => rfl
    | cons b u =>
      cases u with
      | nil => rw [hsp] at h; exact absurd rfl h
      | cons e w => rfl

theorem style_to_dict_error_of_seg (s : String) (seg : List Char)
    (hmem : seg ∈ pySplitChar ';' s.toList) (hne : seg ≠ [])
    (herr : parseDecl seg = .error ()) : style_to_dict (some s) = .error () := by
  have hs : s ≠ "" := by
    intro h
    subst h
    have : seg ∈ [([] : List Char)] := hmem
    exact hne (List.mem_singleton.mp this)
  simp only [style_to_dict, if_neg hs]
  exact foldDecls_error _ _ seg
    (List.mem_filter.mpr ⟨hmem, by simpa using hne⟩) herr

/-! ### Claim theorems for the CSS micro-parser -/

/-- C4, counterexample: `style_to_dict` does not split a declaration on the
first colon only — a segment whose value contains a further colon makes the
whole parse raise, instead of producing the first-colon split. -/
theorem style_to_dict_first_colon_split_fails :
    style_to_dict (some "a: b:c") = .error () ∧
    ¬ style_to_dict (some "a: b:c") = .ok [("a", "b:c")] :=
  ⟨by decide, by decide⟩

/-- C4, amended: `style_to_dict` splits its input on `;`, discards empty
segments, requires each remaining segment to contain exactly one `:` (a
segment with two or more colons fails the whole parse), trims whitespace
from key and value, and returns an empty mapping for empty or null input. -/
theorem style_to_dict_amended_spec :
    style_to_dict none = .ok [] ∧
    style_to_dict (some "") = .ok [] ∧
    style_to_dict (some "border: 1px solid black; text-align: center; font-weight: bold")
      = .ok [("border", "1px solid black"), ("text-align", "center"),
             ("font-weight", "bold")] ∧
    ∀ (s : String) (seg : List Char), seg ∈ pySplitChar ';' s.toList →
      3 ≤ (pySplitChar ':' seg).length → style_to_dict (some s) = .error () := by
  refine ⟨by decide, by decide, by decide, ?_⟩
  intro s seg hmem hlen
  have hne : seg ≠ [] := by
    intro he
    rw [he] at hlen
    exact absurd hlen (by decide)
  exact style_to_dict_error_of_seg s seg hmem hne (parseDecl_error_of_len seg (by omega))

theorem style_to_dict_amended_app :
    style_to_dict (some "x: 1:2") = .error () :=
  style_to_dict_amended_spec.2.2.2 "x: 1:2" ("x: 1:2".toList) (by decide) (by decide)

/-- C10: a non-empty segment without a colon (a whitespace-only segment
between semicolons included) makes `style_to_dict` raise rather than skip
the malformed declaration. -/
theorem style_to_dict_colonless_segment_errors :
    ∀ (s : String) (seg : List Char), seg ∈ pySplitChar ';' s.toList → seg ≠ [] →
      (∀ ch ∈ seg, ch ≠ ':') → style_to_dict (some s) = .error () :=
  fun s seg hmem hne hch =>
    style_to_dict_error_of_seg s seg hmem hne (parseDecl_error_of_no_colon seg hch)

theorem style_to_dict_colonless_app :
    style_to_dict (some "color: red; ;") = .error () :=
  style_to_dict_colonless_segment_errors "color: red; ;" [' '] (by decide) (by decide)
    (by decide)

/-! ### Claim theorems for the unit converter -/

/-- C5: `parse_cell_value` maps the empty string to no value, otherwise
tries an integer parse, then a floating-point parse, then keeps the
original string; it is total (a Lean function) and meets the three
documented examples. -/
theorem parse_cell_value_total_classification :
    parse_cell_value "" = CellValue.none ∧
    (∀ s : String, s ≠ "" →
      parse_cell_value s =
        match pyParseInt s with
        | some i => CellValue.int i
        | none =>
          match pyParseFloat s with
          | some q => CellValue.float q
          | none => CellValue.str s) ∧
    parse_cell_value "1" = CellValue.int 1 ∧
    parse_cell_value "1.2" = CellValue.float (6 / 5) ∧
    parse_cell_value "abc" = CellValue.str "abc" := by
  refine ⟨by decide, ?_, by decide, by decide, by decide⟩
  intro s hs
  unfold parse_cell_value
  cases hi : pyParseInt s
  · cases hf : pyParseFloat s
    · simp [hs]
    · rfl
  · rfl

theorem parse_cell_value_total_classification_app :
    parse_cell_value "xyz" =
      match pyParseInt "xyz" with
      | some i => CellValue.int i
      | none =>
        match pyParseFloat "xyz" with
        | some q => CellValue.float q
        | none => CellValue.str "xyz" :=
  parse_cell_value_total_classification.2.1 "xyz" (by decide)

/-- C3, counterexample: a `<col>` whose width attribute is `"150px"` is fed
to `int()` unchanged, so rendering such a table raises instead of setting a
column width. -/
theorem adjust_columns_px_suffix_errors :
    renderOk ⟨[⟨some "150px"⟩], []⟩ = false ∧
    renderColWidth ⟨[⟨some "150px"⟩], []⟩ 1 = Option.none :=
  ⟨by decide, by decide⟩

/-- C3, amended: a plain-integer width attribute such as `"150"` succeeds
and sets column 1's width to `150 / 7.5 = 20`; in general a parsed integer
pixel width `w ≠ 0` sets the column width to `w / 7.5`. -/
theorem adjust_columns_integer_width :
    renderColWidth ⟨[⟨some "150"⟩], []⟩ 1 = some (some 20) ∧
    ∀ (sheet : Sheet) (s : String) (w : Int), pyParseInt s = some w → w ≠ 0 →
      adjust_columns sheet [⟨some s⟩]
        = .ok { sheet with
                colWidths :=
                  upd1 sheet.colWidths 1 (some (width_pixels_to_xlsx_units ((w : Int) : Rat))) } := by
  constructor
  · decide
  · intro sheet s w h hw
    simp [adjust_columns, List.enum, List.enumFrom, List.foldlM, h, hw, bind,
      Except.bind, pure, Except.pure]

theorem adjust_columns_integer_width_app :
    adjust_columns emptySheet [⟨some "150"⟩]
      = .ok { emptySheet with
              colWidths :=
                upd1 emptySheet.colWidths 1
                  (some (width_pixels_to_xlsx_units (((150 : Int)) : Rat))) } :=
  adjust_columns_integer_width.2 emptySheet "150" 150 (by decide) (by decide)

/-- C7: the row-height path is not total — a present but unparsable
dimension value (no `<digits>px` occurrence, e.g. `height: 10em` or
`line-height: normal`) makes `try_extract_pixels` index an empty match
list, so `try_adjust_row` raises instead of leaving the height unchanged. -/
theorem try_adjust_row_raises_on_unparsable :
    try_adjust_row emptySheet 0 ⟨some "height: 10em", []⟩ = .error () ∧
    try_adjust_row emptySheet 0 ⟨some "line-height: normal", []⟩ = .error () ∧
    try_extract_pixels (some "10em") = .error () :=
  ⟨rfl, rfl, rfl⟩

/-! ### Claim theorems for the style model -/

/-- C9: `Style.union` is override-preferential — each field of
`d.union c` is `c`'s when `c` sets it and `d`'s otherwise, and on styles
with disjoint present fields union is order-independent. -/
theorem style_union_override_wins :
    (∀ d c : Style,
      Style.union d c =
        ⟨if c.border.isSome then c.border else d.border,
         if c.alignment.isSome then c.alignment else d.alignment,
         if c.font.isSome then c.font else d.font⟩) ∧
    (∀ d c : Style,
      (c.border = none ∨ d.border = none) →
      (c.alignment = none ∨ d.alignment = none) →
      (c.font = none ∨ d.font = none) →
      Style.union d c = Style.union c d) := by
  constructor
  · intro d c
    rcases d with ⟨db, da, df⟩
    rcases c with ⟨cb, ca, cf⟩
    cases cb <;> cases ca <;> cases cf <;> simp [Style.union, Option.orElse]
  · intro d c hb ha hf
    rcases d with ⟨db, da, df⟩
    rcases c with ⟨cb, ca, cf⟩
    cases db <;> cases da <;> cases df <;> cases cb <;> cases ca <;> cases cf <;>
      simp_all [Style.union, Option.orElse]

theorem style_union_override_wins_app :
    Style.union ⟨some Border.empty, none, none⟩ ⟨none, some Alignment.empty, some Font.default⟩
      = Style.union ⟨none, some Alignment.empty, some Font.default⟩
          ⟨some Border.empty, none, none⟩ :=
  style_union_override_wins.2 _ _ (Or.inl rfl) (Or.inr rfl) (Or.inr rfl)

/-! ### Helper lemmas for the border builder -/

theorem from_border_attr_falsy (d : List (String × String)) (a : String)
    (h : pyFalsy (dictGet d a)) : from_border_attr d a = none := by
  rcases h with h | h <;> simp [from_border_attr, h]

theorem from_border_attr_all (d : List (String × String)) (v : String)
    (hv : v ≠ "") (a : String) (h : dictGet d a = some v) :
    from_border_attr d a =
      if a = "border" then
        some ⟨some (sideOfRule v), some (sideOfRule v), some (sideOfRule v), some (sideOfRule v)⟩
      else if a = "border-left" then some ⟨some (sideOfRule v), none, none, none⟩
      else if a = "border-right" then some ⟨none, some (sideOfRule v), none, none⟩
      else if a = "border-top" then some ⟨none, none, some (sideOfRule v), none⟩
      else if a = "border-bottom" then some ⟨none, none, none, some (sideOfRule v)⟩
      else none := by
  simp [from_border_attr, h, hv]

/-- C2: `_build_border` resolves the border from the first of
`border, border-left, border-right, border-top, border-bottom` whose value
is present and non-empty (later declarations never contribute), and the
weight of the built side is thin exactly for `"1px solid black"`, medium for
any other value matched by the pixel regex, and unset otherwise. -/
theorem build_border_first_match :
    (∀ (d : List (String × String)) (v : String), dictGet d "border" = some v → v ≠ "" →
      _build_border d
        = ⟨some (sideOfRule v), some (sideOfRule v), some (sideOfRule v), some (sideOfRule v)⟩) ∧
    (∀ (d : List (String × String)) (v : String), pyFalsy (dictGet d "border") →
      dictGet d "border-left" = some v → v ≠ "" →
      _build_border d = ⟨some (sideOfRule v), none, none, none⟩) ∧
    (∀ (d : List (String × String)) (v : String), pyFalsy (dictGet d "border") →
      pyFalsy (dictGet d "border-left") → dictGet d "border-right" = some v → v ≠ "" →
      _build_border d = ⟨none, some (sideOfRule v), none, none⟩) ∧
    (∀ (d : List (String × String)) (v : String), pyFalsy (dictGet d "border") →
      pyFalsy (dictGet d "border-left") → pyFalsy (dictGet d "border-right") →
      dictGet d "border-top" = some v → v ≠ "" →
      _build_border d = ⟨none, none, some (sideOfRule v), none⟩) ∧
    (∀ (d : List (String × String)) (v : String), pyFalsy (dictGet d "border") →
      pyFalsy (dictGet d "border-left") → pyFalsy (dictGet d "border-right") →
      pyFalsy (dictGet d "border-top") → dictGet d "border-bottom" = some v → v ≠ "" →
      _build_border d = ⟨none, none, none, some (sideOfRule v)⟩) ∧
    (∀ d : List (String × String), pyFalsy (dictGet d "border") →
      pyFalsy (dictGet d "border-left") → pyFalsy (dictGet d "border-right") →
      pyFalsy (dictGet d "border-top") → pyFalsy (dictGet d "border-bottom") →
      _build_border d = Border.empty) ∧
    sideOfRule "1px solid black" = ⟨some SideStyle.thin⟩ ∧
    (∀ v : String, v ≠ "1px solid black" → pxSolidBlackMatch v = true →
      sideOfRule v = ⟨some SideStyle.medium⟩) ∧
    (∀ v : String, pxSolidBlackMatch v = false → sideOfRule v = ⟨none⟩) := by
  refine ⟨?_, ?_, ?_, ?_, ?_, ?_, by decide, ?_, ?_⟩
  · intro d v h hv
    simp [_build_border, from_border_attr_all d v hv _ h, Option.orElse]
  · intro d v h0 h hv
    simp [_build_border, from_border_attr_falsy d _ h0,
      from_border_attr_all d v hv _ h, Option.orElse]
  · intro d v h0 h1 h hv
    simp [_build_border, from_border_attr_falsy d _ h0, from_border_attr_falsy d _ h1,
      from_border_attr_all d v hv _ h, Option.orElse]
  · intro d v h0 h1 h2 h hv
    simp [_build_border, from_border_attr_falsy d _ h0, from_border_attr_falsy d _ h1,
      from_border_attr_falsy d _ h2, from_border_attr_all d v hv _ h, Option.orElse]
  · intro d v h0 h1 h2 h3 h hv
    simp [_build_border, from_border_attr_falsy d _ h0, from_border_attr_falsy d _ h1,
      from_border_attr_falsy d _ h2, from_border_attr_falsy d _ h3,
      from_border_attr_all d v hv _ h, Option.orElse]
  · intro d h0 h1 h2 h3 h4
    simp [_build_border, from_border_attr_falsy d _ h0, from_border_attr_falsy d _ h1,
      from_border_attr_falsy d _ h2, from_border_attr_falsy d _ h3,
      from_border_attr_falsy d _ h4, Option.orElse]
  · intro v hne hm
    simp [sideOfRule, hne, hm]
  · intro v hm
    have hne : v ≠ "1px solid black" := by
      intro he
      subst he
      rw [show pxSolidBlackMatch "1px solid black" = true from by decide] at hm
      cases hm
    simp [sideOfRule, hne, hm]

theorem build_border_first_match_app :
    _build_border [("border-right", "2px solid black")]
      = ⟨none, some (sideOfRule "2px solid black"), none, none⟩ ∧
    sideOfRule "2px solid black" = ⟨some SideStyle.medium⟩ :=
  ⟨build_border_first_match.2.2.1 [("border-right", "2px solid black")] "2px solid black"
      (Or.inl (by decide)) (Or.inl (by decide)) (by decide) (by decide),
   build_border_first_match.2.2.2.2.2.2.2.1 "2px solid black" (by decide) (by decide)⟩

/-! ### Helper lemmas for the ghost-cell scan -/

theorem int_le_foldr_max (x : Int) (l : List Int) (h : x ∈ l) :
    x ≤ l.foldr max 0 := by
  induction l with
  | nil => cases h
  | cons a as ih =>
    rcases List.mem_cons.mp h with h | h
    · subst h
      exact le_max_left _ _
    · exact le_trans (ih h) (le_max_right _ _)

theorem isGhost_le_maxEndCol (sheet : Sheet) (r c : Int) (h : isGhost sheet r c = true) :
    c ≤ maxEndCol sheet := by
  simp only [isGhost, List.any_eq_true] at h
  obtain ⟨m, hm, hpred⟩ := h
  simp only [Bool.and_eq_true, decide_eq_true_eq] at hpred
  exact le_trans hpred.1.2 (int_le_foldr_max m.endCol _ (List.mem_map_of_mem _ hm))

theorem skipGhostsFuel_spec (n : Nat) : ∀ (sheet : Sheet) (r c : Int),
    (maxEndCol sheet + 1 - c).toNat < n →
    isGhost sheet r (skipGhostsFuel n sheet r c + 1) = false ∧
    c ≤ skipGhostsFuel n sheet r c ∧
    (skipGhostsFuel n sheet r c = c ∨ skipGhostsFuel n sheet r c ≤ maxEndCol sheet) := by
  induction n with
  | zero => intro sheet r c h; omega
  | succ n ih =>
    intro sheet r c h
    by_cases hg : isGhost sheet r (c + 1) = true
    · have hle : c + 1 ≤ maxEndCol sheet := isGhost_le_maxEndCol sheet r (c + 1) hg
      have hrec := ih sheet r (c + 1) (by omega)
      simp only [skipGhostsFuel, hg, if_true]
      exact ⟨hrec.1, by omega, Or.inr (by rcases hrec.2.2 with h2 | h2 <;> omega)⟩
    · have hg2 : isGhost sheet r (c + 1) = false := by
        cases hgv : isGhost sheet r (c + 1)
        · rfl
        · exact absurd hgv hg
      simp [skipGhostsFuel, hg2]

/-! ### Helper lemmas for the merge-and-style routine -/

theorem mem_intRange (x a b : Int) : x ∈ intRange a b ↔ a ≤ x ∧ x ≤ b := by
  simp only [intRange, List.mem_map, List.mem_range]
  constructor
  · rintro ⟨i, hi, rfl⟩
    omega
  · rintro ⟨h1, h2⟩
    exact ⟨(x - a).toNat, by omega, by omega⟩

theorem nodup_intRange (a b : Int) : (intRange a b).Nodup := by
  unfold intRange
  refine List.Nodup.map ?_ (List.nodup_range _)
  intro i j hij
  simp only [add_right_inj, Nat.cast_inj] at hij
  exact hij

theorem foldl_merges_const {α : Type} (f : Sheet → α → Sheet)
    (hf : ∀ sh a, (f sh a).merges = sh.merges) :
    ∀ (l : List α) (sh : Sheet), (l.foldl f sh).merges = sh.merges := by
  intro l
  induction l with
  | nil => intro sh; rfl
  | cons a as ih => intro sh; rw [List.foldl, ih, hf]

theorem foldl_aligns_const {α : Type} (f : Sheet → α → Sheet)
    (hf : ∀ sh a, (f sh a).aligns = sh.aligns) :
    ∀ (l : List α) (sh : Sheet), (l.foldl f sh).aligns = sh.aligns := by
  intro l
  induction l with
  | nil => intro sh; rfl
  | cons a as ih => intro sh; rw [List.foldl, ih, hf]

theorem foldl_fonts_const {α : Type} (f : Sheet → α → Sheet)
    (hf : ∀ sh a, (f sh a).fonts = sh.fonts) :
    ∀ (l : List α) (sh : Sheet), (l.foldl f sh).fonts = sh.fonts := by
  intro l
  induction l with
  | nil => intro sh; rfl
  | cons a as ih => intro sh; rw [List.foldl, ih, hf]

theorem foldl_values_const {α : Type} (f : Sheet → α → Sheet)
    (hf : ∀ sh a, (f sh a).values = sh.values) :
    ∀ (l : List α) (sh : Sheet), (l.foldl f sh).values = sh.values := by
  intro l
  induction l with
  | nil => intro sh; rfl
  | cons a as ih => intro sh; rw [List.foldl, ih, hf]

theorem foldl_addBorderAt_row_borders (r0 : Int) (nb : Border) (cs : List Int)
    (h : cs.Nodup) (sh : Sheet) (q : Int × Int) :
    (cs.foldl (fun s c => addBorderAt s (r0, c) nb) sh).borders q
      = if q.1 = r0 ∧ q.2 ∈ cs then borderAdd (sh.borders q) nb else sh.borders q := by
  induction cs generalizing sh with
  | nil => simp
  | cons c cs ih =>
    obtain ⟨hc, hcs⟩ := List.nodup_cons.mp h
    simp only [List.foldl]
    rw [ih hcs]
    rcases q with ⟨qr, qc⟩
    simp only [addBorderAt, upd]
    by_cases h1 : qr = r0
    · subst h1
      by_cases h2 : qc = c
      · subst h2
        simp [hc]
      · simp [h2]
    · simp [h1]

theorem foldl_addBorderAt_lr_borders (sc ec : Int) (lb rb : Border) (rs : List Int)
    (h : rs.Nodup) (sh : Sheet) (q : Int × Int) :
    (rs.foldl (fun s r => addBorderAt (addBorderAt s (r, sc) lb) (r, ec) rb) sh).borders q
      = if q.1 ∈ rs then
          (if q.2 = sc ∧ q.2 = ec then borderAdd (borderAdd (sh.borders q) lb) rb
           else if q.2 = sc then borderAdd (sh.borders q) lb
           else if q.2 = ec then borderAdd (sh.borders q) rb
           else sh.borders q)
        else sh.borders q := by
  induction rs generalizing sh with
  | nil => simp
  | cons r0 rs ih =>
    obtain ⟨hr, hrs⟩ := List.nodup_cons.mp h
    simp only [List.foldl]
    rw [ih hrs]
    rcases q with ⟨qr, qc⟩
    simp only [addBorderAt, upd]
    by_cases h1 : qr = r0
    · subst h1
      by_cases h2 : qc = sc <;> by_cases h3 : qc = ec <;>
        simp_all [List.mem_cons]
    · simp [h1, List.mem_cons]

theorem perimeter_folds_frame (s2 : Sheet) (sr er sc ec : Int)
    (bL bR bT bB : Option Side) :
    ((intRange sr er).foldl
        (fun sh r0 => addBorderAt (addBorderAt sh (r0, sc) ⟨bL, none, none, none⟩)
          (r0, ec) ⟨none, bR, none, none⟩)
        ((intRange sc ec).foldl
          (fun sh c0 => addBorderAt sh (er, c0) ⟨none, none, none, bB⟩)
          ((intRange sc ec).foldl
            (fun sh c0 => addBorderAt sh (sr, c0) ⟨none, none, bT, none⟩)
            s2))).merges = s2.merges ∧
    ((intRange sr er).foldl
        (fun sh r0 => addBorderAt (addBorderAt sh (r0, sc) ⟨bL, none, none, none⟩)
          (r0, ec) ⟨none, bR, none, none⟩)
        ((intRange sc ec).foldl
          (fun sh c0 => addBorderAt sh (er, c0) ⟨none, none, none, bB⟩)
          ((intRange sc ec).foldl
            (fun sh c0 => addBorderAt sh (sr, c0) ⟨none, none, bT, none⟩)
            s2))).aligns = s2.aligns ∧
    ((intRange sr er).foldl
        (fun sh r0 => addBorderAt (addBorderAt sh (r0, sc) ⟨bL, none, none, none⟩)
          (r0, ec) ⟨none, bR, none, none⟩)
        ((intRange sc ec).foldl
          (fun sh c0 => addBorderAt sh (er, c0) ⟨none, none, none, bB⟩)
          ((intRange sc ec).foldl
            (fun sh c0 => addBorderAt sh (sr, c0) ⟨none, none, bT, none⟩)
            s2))).fonts = s2.fonts ∧
    ((intRange sr er).foldl
        (fun sh r0 => addBorderAt (addBorderAt sh (r0, sc) ⟨bL, none, none, none⟩)
          (r0, ec) ⟨none, bR, none, none⟩)
        ((intRange sc ec).foldl
          (fun sh c0 => addBorderAt sh (er, c0) ⟨none, none, none, bB⟩)
          ((intRange sc ec).foldl
            (fun sh c0 => addBorderAt sh (sr, c0) ⟨none, none, bT, none⟩)
            s2))).values = s2.values := by
  refine ⟨?_, ?_, ?_, ?_⟩
  · rw [foldl_merges_const, foldl_merges_const, foldl_merges_const]
    all_goals intro sh a; rfl
  · rw [foldl_aligns_const, foldl_aligns_const, foldl_aligns_const]
    all_goals intro sh a; rfl
  · rw [foldl_fonts_const, foldl_fonts_const, foldl_fonts_const]
    all_goals intro sh a; rfl
  · rw [foldl_values_const, foldl_values_const, foldl_values_const]
    all_goals intro sh a; rfl

theorem perimeter_folds_borders (sheet s2 : Sheet) (hs2 : s2.borders = sheet.borders)
    (cr : MergeRange) (bL bR bT bB : Option Side) (r c : Int) :
    ((intRange cr.startRow cr.endRow).foldl
        (fun sh r0 => addBorderAt (addBorderAt sh (r0, cr.startCol) ⟨bL, none, none, none⟩)
          (r0, cr.endCol) ⟨none, bR, none, none⟩)
        ((intRange cr.startCol cr.endCol).foldl
          (fun sh c0 => addBorderAt sh (cr.endRow, c0) ⟨none, none, none, bB⟩)
          ((intRange cr.startCol cr.endCol).foldl
            (fun sh c0 => addBorderAt sh (cr.startRow, c0) ⟨none, none, bT, none⟩)
            s2))).borders (r, c)
      = (let b0 := sheet.borders (r, c)
         let b1 := if r = cr.startRow ∧ cr.startCol ≤ c ∧ c ≤ cr.endCol then
             borderAdd b0 ⟨none, none, bT, none⟩ else b0
         let b2 := if r = cr.endRow ∧ cr.startCol ≤ c ∧ c ≤ cr.endCol then
             borderAdd b1 ⟨none, none, none, bB⟩ else b1
         let b3 := if c = cr.startCol ∧ cr.startRow ≤ r ∧ r ≤ cr.endRow then
             borderAdd b2 ⟨bL, none, none, none⟩ else b2
         if c = cr.endCol ∧ cr.startRow ≤ r ∧ r ≤ cr.endRow then
           borderAdd b3 ⟨none, bR, none, none⟩ else b3) := by
  rw [foldl_addBorderAt_lr_borders _ _ _ _ _ (nodup_intRange _ _),
      foldl_addBorderAt_row_borders _ _ _ (nodup_intRange _ _),
      foldl_addBorderAt_row_borders _ _ _ (nodup_intRange _ _), hs2]
  simp only [mem_intRange]
  split_ifs <;> first | rfl | omega

/-- C8: the ghost-cell skip scan always terminates on a writable cell — for
every sheet state the bounded loop `skipGhosts` stops at a non-ghost column
at or after the cursor, and it never moves past the last column covered by
any merge; the embedded `fill_sheet_with_table_data` is a total function. -/
theorem skipGhosts_finds_writable :
    ∀ (sheet : Sheet) (r c : Int),
      isGhost sheet r (skipGhosts sheet r c + 1) = false ∧
      c ≤ skipGhosts sheet r c ∧
      (skipGhosts sheet r c = c ∨ skipGhosts sheet r c ≤ maxEndCol sheet) :=
  fun sheet r c => skipGhostsFuel_spec _ sheet r c (by omega)

/-- C6: the merge-and-style routine merges the range and sets alignment on
the top-left cell exactly when the style's alignment is present, sets the
font on the top-left cell exactly when the font is present, leaves cell
values untouched, and updates borders exactly as the perimeter law
`borderPerimeterSpec` prescribes — top side on the top row, bottom side on
the bottom row, left side on the leftmost column, right side on the
rightmost column, each combined with the existing border — so strictly
interior cells keep their borders. -/
theorem style_and_merge_cell_range_spec :
    ∀ (sheet : Sheet) (cr : MergeRange) (style : Style),
      (match style.alignment with
       | some a =>
         (style_and_merge_cell_range sheet cr style).merges = sheet.merges ++ [cr] ∧
         (style_and_merge_cell_range sheet cr style).aligns
           = upd sheet.aligns (cr.startRow, cr.startCol) (some a)
       | none =>
         (style_and_merge_cell_range sheet cr style).merges = sheet.merges ∧
         (style_and_merge_cell_range sheet cr style).aligns = sheet.aligns) ∧
      (match style.font with
       | some f =>
         (style_and_merge_cell_range sheet cr style).fonts
           = upd sheet.fonts (cr.startRow, cr.startCol) (some f)
       | none => (style_and_merge_cell_range sheet cr style).fonts = sheet.fonts) ∧
      (style_and_merge_cell_range sheet cr style).values = sheet.values ∧
      (∀ r c : Int, (style_and_merge_cell_range sheet cr style).borders (r, c)
          = borderPerimeterSpec sheet cr style r c) ∧
      (∀ r c : Int, cr.startRow < r → r < cr.endRow → cr.startCol < c → c < cr.endCol →
        (style_and_merge_cell_range sheet cr style).borders (r, c)
          = sheet.borders (r, c)) := by
  intro sheet cr style
  have hborders : ∀ r c : Int,
      (style_and_merge_cell_range sheet cr style).borders (r, c)
        = borderPerimeterSpec sheet cr style r c := by
    intro r c
    cases hal : style.alignment <;> cases hfo : style.font <;>
      simp only [style_and_merge_cell_range, hal, hfo] <;>
      exact perimeter_folds_borders sheet _ (by rfl) cr _ _ _ _ r c
  refine ⟨?_, ?_, ?_, hborders, ?_⟩
  · cases hal : style.alignment <;> cases hfo : style.font <;>
      simp only [style_and_merge_cell_range, hal, hfo] <;>
      exact ⟨by rw [(perimeter_folds_frame _ _ _ _ _ _ _ _ _).1],
             by rw [(perimeter_folds_frame _ _ _ _ _ _ _ _ _).2.1]⟩
  · cases hal : style.alignment <;> cases hfo : style.font <;>
      simp only [style_and_merge_cell_range, hal, hfo] <;>
      rw [(perimeter_folds_frame _ _ _ _ _ _ _ _ _).2.2.1]
  · cases hal : style.alignment <;> cases hfo : style.font <;>
      simp only [style_and_merge_cell_range, hal, hfo] <;>
      rw [(perimeter_folds_frame _ _ _ _ _ _ _ _ _).2.2.2]
  · intro r c h1 h2 h3 h4
    rw [hborders r c]
    simp only [borderPerimeterSpec]
    split_ifs <;> first | rfl | omega

theorem style_and_merge_cell_range_app :
    (style_and_merge_cell_range emptySheet ⟨1, 1, 3, 4⟩ Style.default).borders (2, 2)
      = emptySheet.borders (2, 2) :=
  (style_and_merge_cell_range_spec emptySheet ⟨1, 1, 3, 4⟩ Style.default).2.2.2.2 2 2
    (by decide) (by decide) (by decide) (by decide)

/-! ### Claim theorems for the layout engine -/

/-- C1: rendering the 2-row table whose first cell spans two columns
produces exactly one merge range, rows 1-1 columns 1-2; the spanning cell's
value lands at (1,1) and the second row's two cells at (2,1) and (2,2),
unaffected by the merge.  In general, after a cell is processed the column
cursor sits at the ghost-skipped column plus the cell's colspan, and each
processed row advances the row index by one (the cell fold of every row
restarts the column cursor at 0). -/
theorem render_colspan_layout :
    renderMerges tableC1 = some [⟨1, 1, 1, 2⟩] ∧
    renderValue tableC1 (1, 1) = some (CellValue.str "a") ∧
    renderValue tableC1 (2, 1) = some (CellValue.str "b") ∧
    renderValue tableC1 (2, 2) = some (CellValue.str "c") ∧
    (∀ (ds : Style) (ri : Int) (st : Sheet × Int) (cell : HtmlCell) (k : Int)
        (out : Sheet × Int),
      pyIntAttrD cell.colspan 1 = .ok k → processCell ds ri st cell = .ok out →
      out.2 = skipGhosts st.1 (ri + 1) st.2 + k) ∧
    (∀ (ds : Style) (st : Sheet × Int) (row : HtmlRow) (out : Sheet × Int),
      processRow ds st row = .ok out → out.2 = st.2 + 1) := by
  refine ⟨by decide, by decide, by decide, by decide, ?_, ?_⟩
  · intro ds ri st cell k out hk hout
    simp only [processCell, hk] at hout
    cases hr : pyIntAttrD cell.rowspan 1 <;> rw [hr] at hout
    · cases hout
    · cases hs : extract_style cell.style <;> rw [hs] at hout
      · cases hout
      · cases hout
        rfl
  · intro ds st row out hout
    simp only [processRow, bind, Except.bind] at hout
    cases ha : try_adjust_row st.1 st.2 row with
    | error e =>
      rw [ha] at hout
      cases hout
    | ok sh =>
      rw [ha] at hout
      dsimp only at hout
      cases hfold : List.foldlM (processCell ds st.2) (sh, 0) row.cells with
      | error e =>
        rw [hfold] at hout
        cases hout
      | ok o =>
        rw [hfold] at hout
        dsimp only at hout
        cases hout
        rfl

theorem render_colspan_layout_app :
    ((emptySheet, (1 : Int)).2 : Int) = (0 : Int) + 1 :=
  render_colspan_layout.2.2.2.2.2 Style.default (emptySheet, 0) ⟨none, []⟩ (emptySheet, 1) rfl

end Theorems

end Jinja2xlsx
